import Mathlib

/-!
Shallow embedding of the figure-layout engine of WrightTools (artists.py,
function create_figure and its helpers in_to_mpl and mpl_to_in).

Real-number arithmetic of the source is modelled exactly over the rationals.
A column descriptor in the source is either a number (a relative weight),
the string cbar (a colorbar column), or some other string; a non-numeric
other string makes the float conversion at the subplot_ratios line fail.
Exceptions raised by the source (the explicit raise for duplicate aspect
rows, the float-conversion failure, the out-of-bounds index errors when a
row height is looked up, and the pure-float division by zero in the wspace
conversion) are modelled by the Except monad with a single error type,
called ConfigurationError after the specification.
-/

namespace artists

/-- A column descriptor: a numeric relative weight, the colorbar marker,
or a non-numeric string (which the float conversion in the source rejects). -/
inductive Col where
  | weight (w : ℚ)
  | cbar
  | str (s : String)
deriving DecidableEq, Repr

/-- One aspect override, written [[row, col], aspect] in the source. -/
structure Aspect where
  row : ℕ
  col : ℕ
  aspect : ℚ
deriving DecidableEq, Repr

/-- The width argument of create_figure: the keys single and double, or a
number given directly. -/
inductive Width where
  | single
  | double
  | val (w : ℚ)
deriving DecidableEq, Repr

/-- The single error kind of the engine (the source raises plain
exceptions; the specification names them ConfigurationError). -/
structure ConfigurationError where
  msg : String
deriving DecidableEq, Repr

/-- The layout data computed by create_figure: figure dimensions, the
absolute column widths and row heights handed to GridSpec as ratios, and
the two spacing parameters re-expressed in relative units. -/
structure LayoutResult where
  figureWidth : ℚ
  figureHeight : ℚ
  widthRatios : List ℚ
  heightRatios : List ℚ
  hspaceRel : ℚ
  wspaceRel : ℚ
deriving DecidableEq, Repr

/-- Resolution of the width argument (lines 158 to 163 of the source). -/
def resolveWidth : Width → ℚ
  | .double => 14
  | .single => 13/2
  | .val w => w

/-- Absolute-to-relative spacing conversion (lines 173 to 174). -/
def in_to_mpl (inches total n : ℚ) : ℚ :=
  (inches * n) / (total - inches * n + inches)

/-- Relative-to-absolute spacing conversion (lines 175 to 176). -/
def mpl_to_in (mpl total n : ℚ) : ℚ :=
  (total / (n + mpl * (n - 1))) * mpl

/-- The numeric weights of the non-colorbar columns, in order: the list
comprehension at line 178 of the source, on inputs where the float
conversion succeeds. -/
def contentWeights : List Col → List ℚ
  | [] => []
  | .weight w :: rest => w :: contentWeights rest
  | .cbar :: rest => contentWeights rest
  | .str _ :: rest => contentWeights rest

/-- Whether some column descriptor is a non-numeric string other than the
colorbar marker, making the float conversion at line 178 raise. -/
def hasBadCol (cols : List Col) : Bool :=
  cols.any fun c =>
    match c with
    | .str _ => true
    | _ => false

/-- The number of colorbar markers in the column list, written
cols.count(cbar) in the source. -/
def countCbar : List Col → ℕ
  | [] => 0
  | Col.cbar :: rest => countCbar rest + 1
  | _ :: rest => countCbar rest

/-- The width left to content columns (lines 169 to 171): figure width
minus both margins, minus inter-column whitespace, minus colorbar widths. -/
def totalSubplotWidth (figure_width margin wspace cbar_width : ℚ)
    (cols : List Col) : ℚ :=
  figure_width - 2 * margin - ((cols.length : ℚ) - 1) * wspace
    - (countCbar cols : ℚ) * cbar_width

/-- The absolute widths of the content columns (lines 178 to 180):
normalized weights times the total content width. -/
def subplotWidthsOf (figure_width margin wspace cbar_width : ℚ)
    (cols : List Col) : List ℚ :=
  (contentWeights cols).map fun w =>
    totalSubplotWidth figure_width margin wspace cbar_width cols
      * (w / (contentWeights cols).sum)

/-- The width_ratios list (lines 181 to 191): walk the column list, handing
each non-colorbar column the next entry of subplot_widths and each colorbar
column the fixed colorbar width.  The cases where subplot_widths runs dry
are unreachable from create_figure, which always passes one width per
non-colorbar column. -/
def buildWidthRatios : List Col → List ℚ → ℚ → List ℚ
  | [], _, _ => []
  | Col.cbar :: rest, ws, cw => cw :: buildWidthRatios rest ws cw
  | Col.weight _ :: rest, w :: ws, cw => w :: buildWidthRatios rest ws cw
  | Col.str _ :: rest, w :: ws, cw => w :: buildWidthRatios rest ws cw
  | Col.weight _ :: rest, [], cw => 0 :: buildWidthRatios rest [] cw
  | Col.str _ :: rest, [], cw => 0 :: buildWidthRatios rest [] cw

/-- First position of a row index in a list of row indices, the
list.index call of the source (only reached when the element is present,
so the value at an absent element is immaterial). -/
def indexOfRow : List ℕ → ℕ → ℕ
  | [], _ => 0
  | x :: rest, r => if x = r then 0 else indexOfRow rest r + 1

/-- Height of one row (lines 194 to 202): if the row appears in
rows_in_aspects, look up the matching aspect entry and multiply the width
of the named content column by the aspect ratio; otherwise default to the
width of content column zero.  Out-of-range column lookups are the
IndexError of the source. -/
def rowHeight (subplotWidths : List ℚ) (aspects : List Aspect)
    (rowIndex : ℕ) : Except ConfigurationError ℚ :=
  let rows_in_aspects := aspects.map Aspect.row
  if rowIndex ∈ rows_in_aspects then
    match aspects.get? (indexOfRow rows_in_aspects rowIndex) with
    | some a =>
      match subplotWidths.get? a.col with
      | some w => .ok (w * a.aspect)
      | none => .error ⟨"index out of bounds"⟩
    | none => .error ⟨"index out of bounds"⟩
  else
    match subplotWidths.get? 0 with
    | some w => .ok w
    | none => .error ⟨"index out of bounds"⟩

/-- The for-loop over row indices building subplot_heights (lines 193 to
203), stopping at the first failing row. -/
def rowHeightsOf (subplotWidths : List ℚ) (aspects : List Aspect) :
    List ℕ → Except ConfigurationError (List ℚ)
  | [] => .ok []
  | r :: rest =>
    match rowHeight subplotWidths aspects r with
    | .error e => .error e
    | .ok h =>
      match rowHeightsOf subplotWidths aspects rest with
      | .error e => .error e
      | .ok hs => .ok (h :: hs)

/-- The layout computation of create_figure (lines 157 to 217 of the
source), with the matplotlib figure and GridSpec construction replaced by
returning the numbers handed to them.

The hspace conversion at line 210 divides by a numpy scalar (the heights
come from a numpy array), so a zero denominator there yields a nonfinite
value with a runtime warning, never an exception; the totalized rational
division (value 0) models the absence of an exception on that path.  The
wspace conversion at line 211 divides pure Python floats (figure width
and margin never pass through numpy), so a zero denominator there raises
ZeroDivisionError; that is the explicit zero test below, taken right
before the value is produced. -/
def create_figure (width : Width) (nrows : ℕ) (cols : List Col)
    (margin hspace wspace cbar_width : ℚ) (aspects : List Aspect) :
    Except ConfigurationError LayoutResult :=
  let figure_width := resolveWidth width
  let rows_in_aspects := aspects.map Aspect.row
  if ¬ rows_in_aspects.length = rows_in_aspects.dedup.length then
    .error ⟨"can only specify aspect for one plot in each row"⟩
  else if hasBadCol cols then
    .error ⟨"could not convert string to float"⟩
  else
    let subplot_widths :=
      subplotWidthsOf figure_width margin wspace cbar_width cols
    let width_ratios := buildWidthRatios cols subplot_widths cbar_width
    match rowHeightsOf subplot_widths aspects (List.range nrows) with
    | .error e => .error e
    | .ok subplot_heights =>
      let figure_height :=
        subplot_heights.sum + ((nrows : ℚ) - 1) * hspace + 2 * margin
      if (figure_width - 2 * margin) - wspace * (cols.length : ℚ) + wspace
          = 0 then
        .error ⟨"float division by zero"⟩
      else
        .ok { figureWidth := figure_width
              figureHeight := figure_height
              widthRatios := width_ratios
              heightRatios := subplot_heights
              hspaceRel :=
                in_to_mpl hspace (figure_height - 2 * margin) (nrows : ℚ)
              wspaceRel :=
                in_to_mpl wspace (figure_width - 2 * margin)
                  ((cols.length : ℚ)) }

/-- Full-list position of the c-th content column: each colorbar entry
shifts later content columns one position to the right. -/
def contentPos : List Col → ℕ → ℕ
  | [], _ => 0
  | Col.cbar :: rest, c => contentPos rest c + 1
  | _ :: _, 0 => 0
  | _ :: rest, c + 1 => contentPos rest c + 1

/-- Helper: rewriting the first conversion into a single fraction. -/
theorem in_to_mpl_denom (s T n : ℚ) (h1 : T - s * n + s ≠ 0) :
    n + in_to_mpl s T n * (n - 1) = n * T / (T - s * n + s) := by
  unfold in_to_mpl
  field_simp
  ring

/-- Helper: rewriting the second conversion into a single fraction. -/
theorem mpl_to_in_denom (f T n : ℚ) (h3 : n + f * (n - 1) ≠ 0) :
    T - mpl_to_in f T n * n + mpl_to_in f T n = T * n / (n + f * (n - 1)) := by
  unfold mpl_to_in
  field_simp
  ring

/-- Helper: sum of a list scaled term by term. -/
theorem sum_map_mul_div (t S : ℚ) (l : List ℚ) :
    (l.map fun w => t * (w / S)).sum = t * (l.sum / S) := by
  induction l with
  | nil => simp
  | cons w rest ih =>
    simp [ih]
    ring

/-- Helper: the content widths have one entry per content weight. -/
theorem subplotWidthsOf_length (fw m ws cw : ℚ) (cols : List Col) :
    (subplotWidthsOf fw m ws cw cols).length = (contentWeights cols).length := by
  simp [subplotWidthsOf]

/-- Helper: the content widths sum to the whole content width when the
weights have a nonzero sum. -/
theorem subplotWidthsOf_sum (fw m ws cw : ℚ) (cols : List Col)
    (hS : (contentWeights cols).sum ≠ 0) :
    (subplotWidthsOf fw m ws cw cols).sum = totalSubplotWidth fw m ws cw cols := by
  unfold subplotWidthsOf
  rw [sum_map_mul_div, div_self hS, mul_one]

/-- Helper: summing the width_ratios list counts every content width once
and the colorbar width once per colorbar column. -/
theorem buildWidthRatios_sum (cw : ℚ) (cols : List Col) :
    ∀ ws : List ℚ, hasBadCol cols = false →
      (contentWeights cols).length = ws.length →
      (buildWidthRatios cols ws cw).sum = ws.sum + (countCbar cols : ℚ) * cw := by
  induction cols with
  | nil =>
    intro ws _ hlen
    have hws : ws = [] := List.length_eq_zero.mp (by simpa [contentWeights] using hlen.symm)
    subst hws
    simp [buildWidthRatios, countCbar]
  | cons c rest ih =>
    intro ws hb hlen
    cases c with
    | weight w0 =>
      cases ws with
      | nil => simp [contentWeights] at hlen
      | cons x ws2 =>
        have hb2 : hasBadCol rest = false := by simpa [hasBadCol] using hb
        have hlen2 : (contentWeights rest).length = ws2.length := by
          simpa [contentWeights] using hlen
        have h := ih ws2 hb2 hlen2
        simp [buildWidthRatios, h, countCbar]
        ring
    | cbar =>
      have hb2 : hasBadCol rest = false := by simpa [hasBadCol] using hb
      have hlen2 : (contentWeights rest).length = ws.length := by
        simpa [contentWeights] using hlen
      have h := ih ws hb2 hlen2
      simp [buildWidthRatios, h, countCbar]
      ring
    | str s =>
      simp [hasBadCol] at hb

/-- Helper: a list whose length equals the length of its dedup has no
duplicates. -/
theorem nodup_of_length_eq_dedup {α : Type} [DecidableEq α] {l : List α}
    (h : l.length = l.dedup.length) : l.Nodup := by
  have hsub : l.dedup.Sublist l := List.dedup_sublist l
  have heq : l.dedup = l := hsub.eq_of_length h.symm
  rw [← heq]
  exact List.nodup_dedup l

/-- Helper: everything a successful create_figure run determines: both
validations passed, the wspace-conversion denominator is nonzero, the
row-height loop succeeded, and the result fields are exactly the computed
values. -/
theorem create_figure_ok_elim (width : Width) (nrows : ℕ) (cols : List Col)
    (margin hspace wspace cbar_width : ℚ) (aspects : List Aspect)
    (res : LayoutResult)
    (h : create_figure width nrows cols margin hspace wspace cbar_width aspects
          = .ok res) :
    (aspects.map Aspect.row).length = ((aspects.map Aspect.row).dedup).length ∧
    hasBadCol cols = false ∧
    (resolveWidth width - 2 * margin) - wspace * (cols.length : ℚ) + wspace
      ≠ 0 ∧
    ∃ hs, rowHeightsOf
        (subplotWidthsOf (resolveWidth width) margin wspace cbar_width cols)
        aspects (List.range nrows) = .ok hs ∧
      res = { figureWidth := resolveWidth width
              figureHeight := hs.sum + ((nrows : ℚ) - 1) * hspace + 2 * margin
              widthRatios := buildWidthRatios cols
                  (subplotWidthsOf (resolveWidth width) margin wspace cbar_width
                    cols)
                  cbar_width
              heightRatios := hs
              hspaceRel := in_to_mpl hspace
                  (hs.sum + ((nrows : ℚ) - 1) * hspace + 2 * margin - 2 * margin)
                  (nrows : ℚ)
              wspaceRel := in_to_mpl wspace (resolveWidth width - 2 * margin)
                  ((cols.length : ℚ)) } := by
  by_cases h1 : (aspects.map Aspect.row).length = ((aspects.map Aspect.row).dedup).length
  · by_cases h2 : hasBadCol cols = true
    · exfalso
      simp only [create_figure] at h
      rw [if_neg (not_not_intro h1), if_pos h2] at h
      exact Except.noConfusion h
    · have h2f : hasBadCol cols = false := by simpa using h2
      simp only [create_figure] at h
      rw [if_neg (not_not_intro h1), if_neg h2] at h
      cases hrh : rowHeightsOf
          (subplotWidthsOf (resolveWidth width) margin wspace cbar_width cols)
          aspects (List.range nrows) with
      | error e =>
        rw [hrh] at h
        exact absurd h (by simp)
      | ok hs =>
        rw [hrh] at h
        simp only [] at h
        by_cases hwd : (resolveWidth width - 2 * margin)
            - wspace * (cols.length : ℚ) + wspace = 0
        · exfalso
          rw [if_pos hwd] at h
          exact Except.noConfusion h
        · rw [if_neg hwd] at h
          refine ⟨h1, h2f, hwd, hs, rfl, ?_⟩
          injection h with h
          exact h.symm
  · exfalso
    simp only [create_figure] at h
    rw [if_pos h1] at h
    exact Except.noConfusion h

/-- Helper: positional content of a successful row-height loop. -/
theorem rowHeightsOf_ok_get (ws : List ℚ) (aspects : List Aspect) :
    ∀ (l : List ℕ) (hs : List ℚ), rowHeightsOf ws aspects l = .ok hs →
      ∀ (i r : ℕ), l.get? i = some r →
        ∃ hv, rowHeight ws aspects r = .ok hv ∧ hs.get? i = some hv := by
  intro l
  induction l with
  | nil =>
    intro hs _ i r hget
    simp at hget
  | cons x rest ih =>
    intro hs hok i r hget
    cases hx : rowHeight ws aspects x with
    | error e =>
      simp only [rowHeightsOf, hx] at hok
      exact Except.noConfusion hok
    | ok h0 =>
      cases hrest : rowHeightsOf ws aspects rest with
      | error e =>
        simp only [rowHeightsOf, hx, hrest] at hok
        exact Except.noConfusion hok
      | ok hs2 =>
        simp only [rowHeightsOf, hx, hrest] at hok
        have hhs : hs = h0 :: hs2 := by
          cases hok
          rfl
        subst hhs
        cases i with
        | zero =>
          have hxr : x = r := by simpa using hget
          subst hxr
          exact ⟨h0, hx, rfl⟩
        | succ j =>
          have hget2 : rest.get? j = some r := by simpa using hget
          exact ih hs2 hrest j r hget2

/-- Helper: the row-height loop cannot succeed when some row fails. -/
theorem rowHeightsOf_error_of_mem (ws : List ℚ) (aspects : List Aspect)
    (e : ConfigurationError) :
    ∀ (l : List ℕ) (r : ℕ), r ∈ l → rowHeight ws aspects r = .error e →
      ∃ e2, rowHeightsOf ws aspects l = .error e2 := by
  intro l
  induction l with
  | nil =>
    intro r hmem
    cases hmem
  | cons x rest ih =>
    intro r hmem herr
    rcases List.mem_cons.mp hmem with hx | hx
    · subst hx
      exact ⟨e, by simp only [rowHeightsOf, herr]⟩
    · cases hx0 : rowHeight ws aspects x with
      | error e3 => exact ⟨e3, by simp only [rowHeightsOf, hx0]⟩
      | ok h0 =>
        obtain ⟨e2, he2⟩ := ih r hx herr
        exact ⟨e2, by simp only [rowHeightsOf, hx0, he2]⟩

/-- Helper: when the mapped rows have no duplicates, looking up the first
index of its row finds the aspect entry itself. -/
theorem get_indexOfRow (aspects : List Aspect) (a : Aspect)
    (hnd : (aspects.map Aspect.row).Nodup) (ha : a ∈ aspects) :
    aspects.get? (indexOfRow (aspects.map Aspect.row) a.row) = some a := by
  induction aspects with
  | nil => cases ha
  | cons b rest ih =>
    have hnd2 : (rest.map Aspect.row).Nodup :=
      (List.nodup_cons.mp (by simpa using hnd)).2
    have hninr : b.row ∉ rest.map Aspect.row :=
      (List.nodup_cons.mp (by simpa using hnd)).1
    rcases List.mem_cons.mp ha with hab | hmem
    · subst hab
      simp [indexOfRow]
    · have hbne : ¬ b.row = a.row := by
        intro heq
        exact hninr (heq ▸ List.mem_map_of_mem Aspect.row hmem)
      simp only [List.map_cons, indexOfRow, if_neg hbne, List.get?_cons_succ]
      exact ih hnd2 hmem

/-- Helper: looking up a content width through the width_ratios list at
the full-list position of that content column finds the same width. -/
theorem buildWidthRatios_get_contentPos (cw : ℚ) :
    ∀ (cols : List Col) (ws : List ℚ) (c : ℕ) (w : ℚ),
      hasBadCol cols = false →
      (contentWeights cols).length = ws.length →
      ws.get? c = some w →
      (buildWidthRatios cols ws cw).get? (contentPos cols c) = some w := by
  intro cols
  induction cols with
  | nil =>
    intro ws c w _ hlen hget
    have hws : ws = [] := List.length_eq_zero.mp (by simpa [contentWeights] using hlen.symm)
    subst hws
    simp at hget
  | cons hd rest ih =>
    intro ws c w hb hlen hget
    cases hd with
    | weight w0 =>
      cases ws with
      | nil => simp [contentWeights] at hlen
      | cons x ws2 =>
        have hb2 : hasBadCol rest = false := by simpa [hasBadCol] using hb
        have hlen2 : (contentWeights rest).length = ws2.length := by
          simpa [contentWeights] using hlen
        cases c with
        | zero =>
          have hxw : x = w := by simpa using hget
          subst hxw
          simp [buildWidthRatios, contentPos]
        | succ c2 =>
          have hget2 : ws2.get? c2 = some w := by simpa using hget
          simpa [buildWidthRatios, contentPos] using ih ws2 c2 w hb2 hlen2 hget2
    | cbar =>
      have hb2 : hasBadCol rest = false := by simpa [hasBadCol] using hb
      have hlen2 : (contentWeights rest).length = ws.length := by
        simpa [contentWeights] using hlen
      simpa [buildWidthRatios, contentPos] using ih ws c w hb2 hlen2 hget
    | str s =>
      simp [hasBadCol] at hb

/-- Helper: a content index within range never maps to an earlier
full-list position. -/
theorem contentPos_ge :
    ∀ (cols : List Col) (c : ℕ), c ≤ (contentWeights cols).length →
      c ≤ contentPos cols c := by
  intro cols
  induction cols with
  | nil =>
    intro c hc
    have hc0 : c = 0 := by simpa [contentWeights] using hc
    simp [hc0]
  | cons hd rest ih =>
    intro c hc
    cases hd with
    | weight w0 =>
      cases c with
      | zero => simp
      | succ c2 =>
        have hc2 : c2 ≤ (contentWeights rest).length := by
          simpa [contentWeights] using hc
        have hstep : contentPos (Col.weight w0 :: rest) (c2 + 1)
            = contentPos rest c2 + 1 := rfl
        have := ih c2 hc2
        omega
    | cbar =>
      have hc2 : c ≤ (contentWeights rest).length := by
        simpa [contentWeights] using hc
      have hstep : contentPos (Col.cbar :: rest) c = contentPos rest c + 1 := by
        simp [contentPos]
      have := ih c hc2
      omega
    | str s =>
      cases c with
      | zero => simp
      | succ c2 =>
        have hc2 : c2 ≤ (contentWeights rest).length := by
          simp [contentWeights] at hc
          omega
        have hstep : contentPos (Col.str s :: rest) (c2 + 1)
            = contentPos rest c2 + 1 := rfl
        have := ih c2 hc2
        omega

/-- Helper: a colorbar marker strictly before a content index pushes the
full-list position of that content column strictly past the index. -/
theorem contentPos_gt :
    ∀ (cols : List Col) (c : ℕ), Col.cbar ∈ cols.take c →
      c ≤ (contentWeights cols).length →
      c < contentPos cols c := by
  intro cols
  induction cols with
  | nil =>
    intro c hcb _
    simp at hcb
  | cons hd rest ih =>
    intro c hcb hc
    cases c with
    | zero => simp at hcb
    | succ c2 =>
      cases hd with
      | weight w0 =>
        have hcb2 : Col.cbar ∈ rest.take c2 := by simpa using hcb
        have hc2 : c2 ≤ (contentWeights rest).length := by
          simp [contentWeights] at hc
          omega
        have hstep : contentPos (Col.weight w0 :: rest) (c2 + 1)
            = contentPos rest c2 + 1 := rfl
        have := ih c2 hcb2 hc2
        omega
      | cbar =>
        have hc2 : c2 + 1 ≤ (contentWeights rest).length := by
          simpa [contentWeights] using hc
        have hle := contentPos_ge rest (c2 + 1) hc2
        have hstep : contentPos (Col.cbar :: rest) (c2 + 1)
            = contentPos rest (c2 + 1) + 1 := by
          simp [contentPos]
        omega
      | str s =>
        have hcb2 : Col.cbar ∈ rest.take c2 := by simpa using hcb
        have hc2 : c2 ≤ (contentWeights rest).length := by
          simp [contentWeights] at hc
          omega
        have hstep : contentPos (Col.str s :: rest) (c2 + 1)
            = contentPos rest c2 + 1 := rfl
        have := ih c2 hcb2 hc2
        omega

/-- C1: with the denominators of both conversions nonzero, in_to_mpl and
mpl_to_in (at the same total dimension T and slot count n) are exact
inverses of one another: converting an absolute spacing to a relative
fraction and back reproduces it, and conversely. -/
theorem in_to_mpl_mpl_to_in_roundtrip (s f T n : ℚ)
    (h1 : T - s * n + s ≠ 0)
    (h2 : n + in_to_mpl s T n * (n - 1) ≠ 0)
    (h3 : n + f * (n - 1) ≠ 0)
    (h4 : T - mpl_to_in f T n * n + mpl_to_in f T n ≠ 0) :
    mpl_to_in (in_to_mpl s T n) T n = s ∧ in_to_mpl (mpl_to_in f T n) T n = f := by
  have key1 := in_to_mpl_denom s T n h1
  have key2 := mpl_to_in_denom f T n h3
  have hnT : n * T ≠ 0 := by
    rw [key1] at h2
    exact (div_ne_zero_iff.mp h2).1
  have hn : n ≠ 0 := left_ne_zero_of_mul hnT
  have hT : T ≠ 0 := right_ne_zero_of_mul hnT
  constructor
  · unfold mpl_to_in
    rw [key1]
    unfold in_to_mpl
    rw [div_div_eq_mul_div]
    field_simp
    ring
  · unfold in_to_mpl
    rw [key2]
    unfold mpl_to_in
    field_simp
    ring

/-- Witness for C1 at s = 1/4, f = 1/3, T = 9/2, n = 2. -/
theorem in_to_mpl_mpl_to_in_roundtrip_witness :
    mpl_to_in (in_to_mpl (1/4) (9/2) 2) (9/2) 2 = 1/4 ∧
    in_to_mpl (mpl_to_in (1/3) (9/2) 2) (9/2) 2 = 1/3 :=
  in_to_mpl_mpl_to_in_roundtrip (1/4) (1/3) (9/2) 2
    (by norm_num) (by norm_num [in_to_mpl]) (by norm_num)
    (by norm_num [mpl_to_in])

/-- C2: for a layout request that create_figure accepts, with positive
content weights and at least one content column, the absolute column
widths plus the inter-column whitespace plus both margins reconstitute the
total figure width; colorbar columns contribute the fixed colorbar width
and content columns share the content width by normalized weight. -/
theorem create_figure_width_sum (width : Width) (nrows : ℕ) (cols : List Col)
    (margin hspace wspace cbar_width : ℚ) (aspects : List Aspect)
    (res : LayoutResult)
    (h : create_figure width nrows cols margin hspace wspace cbar_width aspects
          = .ok res)
    (hpos : ∀ w ∈ contentWeights cols, 0 < w)
    (hne : contentWeights cols ≠ []) :
    res.widthRatios.sum + ((cols.length : ℚ) - 1) * wspace + 2 * margin
      = resolveWidth width := by
  obtain ⟨hdup, hb, hwd, hs, hrh, hres⟩ :=
    create_figure_ok_elim width nrows cols margin hspace wspace cbar_width
      aspects res h
  subst hres
  have hS : (0 : ℚ) < (contentWeights cols).sum := List.sum_pos _ hpos hne
  have hlen : (contentWeights cols).length
      = (subplotWidthsOf (resolveWidth width) margin wspace cbar_width cols).length :=
    (subplotWidthsOf_length _ _ _ _ _).symm
  show (buildWidthRatios cols
      (subplotWidthsOf (resolveWidth width) margin wspace cbar_width cols)
      cbar_width).sum + ((cols.length : ℚ) - 1) * wspace + 2 * margin
    = resolveWidth width
  rw [buildWidthRatios_sum cbar_width cols _ hb hlen]
  rw [subplotWidthsOf_sum _ _ _ _ _ (ne_of_gt hS)]
  unfold totalSubplotWidth
  ring

/-- Witness for C2 on a one-content-column, one-colorbar request. -/
theorem create_figure_width_sum_witness :
    (LayoutResult.mk (13/2) 6 [4, 1/4] [4] (1/16) (2/17)).widthRatios.sum
        + ((([Col.weight 1, Col.cbar] : List Col).length : ℚ) - 1) * (1/4)
        + 2 * 1
      = resolveWidth Width.single :=
  create_figure_width_sum Width.single 1 [Col.weight 1, Col.cbar] 1 (1/4) (1/4)
    (1/4) [] ⟨13/2, 6, [4, 1/4], [4], 1/16, 2/17⟩
    (by
      simp [create_figure, rowHeightsOf, rowHeight, subplotWidthsOf,
        contentWeights, buildWidthRatios, totalSubplotWidth, countCbar,
        hasBadCol, in_to_mpl, resolveWidth, indexOfRow, List.range_succ]
      norm_num)
    (by norm_num [contentWeights]) (by simp [contentWeights])

/-- C3: the total figure height of an accepted request equals the sum of
the row heights plus the inter-row whitespace plus both margins. -/
theorem create_figure_height_total (width : Width) (nrows : ℕ) (cols : List Col)
    (margin hspace wspace cbar_width : ℚ) (aspects : List Aspect)
    (res : LayoutResult)
    (h : create_figure width nrows cols margin hspace wspace cbar_width aspects
          = .ok res) :
    res.figureHeight
      = res.heightRatios.sum + ((nrows : ℚ) - 1) * hspace + 2 * margin := by
  obtain ⟨hdup, hb, hwd, hs, hrh, hres⟩ :=
    create_figure_ok_elim width nrows cols margin hspace wspace cbar_width
      aspects res h
  subst hres
  rfl

/-- Witness for C3 on a one-content-column, one-colorbar request. -/
theorem create_figure_height_total_witness :
    (LayoutResult.mk (13/2) 6 [4, 1/4] [4] (1/16) (2/17)).figureHeight
      = (LayoutResult.mk (13/2) 6 [4, 1/4] [4] (1/16) (2/17)).heightRatios.sum
        + (((1 : ℕ) : ℚ) - 1) * (1/4) + 2 * 1 :=
  create_figure_height_total Width.single 1 [Col.weight 1, Col.cbar] 1 (1/4)
    (1/4) (1/4) [] ⟨13/2, 6, [4, 1/4], [4], 1/16, 2/17⟩
    (by
      simp [create_figure, rowHeightsOf, rowHeight, subplotWidthsOf,
        contentWeights, buildWidthRatios, totalSubplotWidth, countCbar,
        hasBadCol, in_to_mpl, resolveWidth, indexOfRow, List.range_succ]
      norm_num)

/-- C4: a request whose aspect overrides repeat a row index is rejected
with the duplicate-row ConfigurationError and yields no layout. -/
theorem create_figure_duplicate_aspect_rows (width : Width) (nrows : ℕ)
    (cols : List Col) (margin hspace wspace cbar_width : ℚ)
    (aspects : List Aspect)
    (hdup : ¬ (aspects.map Aspect.row).Nodup) :
    create_figure width nrows cols margin hspace wspace cbar_width aspects
      = .error ⟨"can only specify aspect for one plot in each row"⟩ := by
  have hcond : ¬ (aspects.map Aspect.row).length
      = ((aspects.map Aspect.row).dedup).length :=
    fun hlen => hdup (nodup_of_length_eq_dedup hlen)
  simp only [create_figure]
  rw [if_pos hcond]

/-- Witness for C4: two overrides of row zero. -/
theorem create_figure_duplicate_aspect_rows_witness :
    create_figure Width.single 2 [Col.weight 1] 1 (1/4) (1/4) (1/4)
        [⟨0, 0, 1⟩, ⟨0, 0, 2⟩]
      = .error ⟨"can only specify aspect for one plot in each row"⟩ :=
  create_figure_duplicate_aspect_rows Width.single 2 [Col.weight 1] 1 (1/4)
    (1/4) (1/4) [⟨0, 0, 1⟩, ⟨0, 0, 2⟩] (by simp)

/-- Helper: the value of rowHeight on a row with an override, phrased
through the looked-up aspect entry. -/
theorem rowHeight_mem_eq (ws : List ℚ) (aspects : List Aspect) (r : ℕ)
    (a : Aspect) (hmem : r ∈ aspects.map Aspect.row)
    (hidx : aspects.get? (indexOfRow (aspects.map Aspect.row) r) = some a) :
    rowHeight ws aspects r
      = match ws.get? a.col with
        | some w => .ok (w * a.aspect)
        | none => .error ⟨"index out of bounds"⟩ := by
  simp only [rowHeight]
  rw [if_pos hmem, hidx]

/-- Helper: the value of rowHeight on a row with no override. -/
theorem rowHeight_not_mem_eq (ws : List ℚ) (aspects : List Aspect) (r : ℕ)
    (hnm : r ∉ aspects.map Aspect.row) :
    rowHeight ws aspects r
      = match ws.get? 0 with
        | some w => .ok w
        | none => .error ⟨"index out of bounds"⟩ := by
  simp only [rowHeight]
  rw [if_neg hnm]

/-- C6 counterexample: the column list has its colorbar marker at full
position 0 and the override names column index 0, yet create_figure
accepts the request instead of rejecting it; the index is resolved against
the content columns, so the single content column (width 4) drives the row
height 8. -/
theorem create_figure_cbar_position_aspect_accepted :
    ([Col.cbar, Col.weight 1] : List Col).get? 0 = some Col.cbar ∧
    create_figure Width.single 1 [Col.cbar, Col.weight 1] 1 (1/4) (1/4) (1/4)
        [⟨0, 0, 2⟩]
      = .ok ⟨13/2, 10, [1/4, 4], [8], 1/32, 2/17⟩ := by
  constructor
  · rfl
  · simp [create_figure, rowHeightsOf, rowHeight, subplotWidthsOf,
      contentWeights, buildWidthRatios, totalSubplotWidth, countCbar, hasBadCol,
      in_to_mpl, resolveWidth, indexOfRow, List.range_succ]
    norm_num

/-- C6 amended: the override column index is an index into the content
columns, and only an index that is out of range of the content columns is
rejected (as the out-of-bounds lookup of the source): a request with a
single override whose row is in range and whose column index is at least
the number of content columns makes create_figure report an error. -/
theorem create_figure_aspect_col_out_of_range (width : Width) (nrows : ℕ)
    (cols : List Col) (margin hspace wspace cbar_width : ℚ) (a : Aspect)
    (hr : a.row < nrows) (hc : (contentWeights cols).length ≤ a.col) :
    ∃ e, create_figure width nrows cols margin hspace wspace cbar_width [a]
        = .error e := by
  by_cases hbc : hasBadCol cols = true
  · refine ⟨⟨"could not convert string to float"⟩, ?_⟩
    simp only [create_figure]
    rw [if_neg (by simp), if_pos hbc]
  · have herr : rowHeight
        (subplotWidthsOf (resolveWidth width) margin wspace cbar_width cols)
        [a] a.row = .error ⟨"index out of bounds"⟩ := by
      have hnone : (subplotWidthsOf (resolveWidth width) margin wspace
          cbar_width cols).get? a.col = none := by
        rw [List.get?_eq_none, subplotWidthsOf_length]
        exact hc
      rw [rowHeight_mem_eq _ [a] a.row a (by simp) (by simp [indexOfRow]),
        hnone]
    obtain ⟨e2, he2⟩ := rowHeightsOf_error_of_mem
      (subplotWidthsOf (resolveWidth width) margin wspace cbar_width cols) [a]
      ⟨"index out of bounds"⟩ (List.range nrows) a.row
      (List.mem_range.mpr hr) herr
    refine ⟨e2, ?_⟩
    simp only [create_figure]
    rw [if_neg (by simp), if_neg hbc, he2]

/-- Witness for C6 amended: an override naming content index 1 when only
one content column exists. -/
theorem create_figure_aspect_col_out_of_range_witness :
    ∃ e, create_figure Width.single 1 [Col.weight 1, Col.cbar] 1 (1/4) (1/4)
        (1/4) [⟨0, 1, 2⟩] = .error e :=
  create_figure_aspect_col_out_of_range Width.single 1 [Col.weight 1, Col.cbar]
    1 (1/4) (1/4) (1/4) ⟨0, 1, 2⟩ (by norm_num) (by simp [contentWeights])

/-- C7: for a request create_figure accepts, a row named by an aspect
override gets height equal to the width of the override's content column
times the aspect ratio, and a row with no override gets the width of
content column zero. -/
theorem create_figure_row_height_rule (width : Width) (nrows : ℕ)
    (cols : List Col) (margin hspace wspace cbar_width : ℚ)
    (aspects : List Aspect) (res : LayoutResult)
    (h : create_figure width nrows cols margin hspace wspace cbar_width aspects
          = .ok res)
    (r : ℕ) (hr : r < nrows) :
    (∀ a ∈ aspects, a.row = r →
      ∃ w, (subplotWidthsOf (resolveWidth width) margin wspace cbar_width
            cols).get? a.col = some w ∧
        res.heightRatios.get? r = some (w * a.aspect)) ∧
    (r ∉ aspects.map Aspect.row →
      ∃ w, (subplotWidthsOf (resolveWidth width) margin wspace cbar_width
            cols).get? 0 = some w ∧
        res.heightRatios.get? r = some w) := by
  obtain ⟨hdup, hb, hwd, hs, hrh, hres⟩ :=
    create_figure_ok_elim width nrows cols margin hspace wspace cbar_width
      aspects res h
  have hnd : (aspects.map Aspect.row).Nodup := nodup_of_length_eq_dedup hdup
  have hrange : (List.range nrows).get? r = some r := List.get?_range hr
  obtain ⟨hv, hok, hsget⟩ :=
    rowHeightsOf_ok_get _ aspects (List.range nrows) hs hrh r r hrange
  subst hres
  constructor
  · intro a ha har
    have hmem : r ∈ aspects.map Aspect.row :=
      har ▸ List.mem_map_of_mem Aspect.row ha
    have hidx := get_indexOfRow aspects a hnd ha
    rw [har] at hidx
    rw [rowHeight_mem_eq _ aspects r a hmem hidx] at hok
    cases hw : (subplotWidthsOf (resolveWidth width) margin wspace cbar_width
        cols).get? a.col with
    | none =>
      rw [hw] at hok
      exact Except.noConfusion hok
    | some w =>
      rw [hw] at hok
      have hval : w * a.aspect = hv := by injection hok
      refine ⟨w, rfl, ?_⟩
      show hs.get? r = some (w * a.aspect)
      rw [hsget, ← hval]
  · intro hnm
    rw [rowHeight_not_mem_eq _ aspects r hnm] at hok
    cases hw : (subplotWidthsOf (resolveWidth width) margin wspace cbar_width
        cols).get? 0 with
    | none =>
      rw [hw] at hok
      exact Except.noConfusion hok
    | some w =>
      rw [hw] at hok
      have hval : w = hv := by injection hok
      refine ⟨w, rfl, ?_⟩
      show hs.get? r = some w
      rw [hsget, ← hval]

/-- Witness for C7: an override of 2 on row 0 targeting a content column
of width 4 yields the row height 8. -/
theorem create_figure_row_height_rule_witness :
    (∀ a ∈ ([⟨0, 0, 2⟩] : List Aspect), a.row = 0 →
      ∃ w, (subplotWidthsOf (resolveWidth Width.single) 1 (1/4) (1/4)
            [Col.weight 1, Col.cbar]).get? a.col = some w ∧
        (LayoutResult.mk (13/2) 10 [4, 1/4] [8] (1/32) (2/17)).heightRatios.get? 0
          = some (w * a.aspect)) ∧
    ((0 : ℕ) ∉ ([⟨0, 0, 2⟩] : List Aspect).map Aspect.row →
      ∃ w, (subplotWidthsOf (resolveWidth Width.single) 1 (1/4) (1/4)
            [Col.weight 1, Col.cbar]).get? 0 = some w ∧
        (LayoutResult.mk (13/2) 10 [4, 1/4] [8] (1/32) (2/17)).heightRatios.get? 0
          = some w) :=
  create_figure_row_height_rule Width.single 1 [Col.weight 1, Col.cbar] 1 (1/4)
    (1/4) (1/4) [⟨0, 0, 2⟩] ⟨13/2, 10, [4, 1/4], [8], 1/32, 2/17⟩
    (by
      simp [create_figure, rowHeightsOf, rowHeight, subplotWidthsOf,
        contentWeights, buildWidthRatios, totalSubplotWidth, countCbar,
        hasBadCol, in_to_mpl, resolveWidth, indexOfRow, List.range_succ]
      norm_num)
    0 (by norm_num)

/-- C8 counterexample: with weights [1, 1], no colorbar, margin 1, total
width 6.5 and horizontal spacing 0.25, the content width is 4.25 (not
3.25) and each column gets 2.125 (not 1.625). -/
theorem create_figure_equal_split_counterexample :
    totalSubplotWidth (resolveWidth Width.single) 1 (1/4) (1/4)
        [Col.weight 1, Col.weight 1] = 17/4 ∧
    ¬ totalSubplotWidth (resolveWidth Width.single) 1 (1/4) (1/4)
        [Col.weight 1, Col.weight 1] = 13/4 ∧
    create_figure Width.single 1 [Col.weight 1, Col.weight 1] 1 (1/4) (1/4)
        (1/4) []
      = .ok ⟨13/2, 33/8, [17/8, 17/8], [17/8], 2/17, 2/17⟩ := by
  refine ⟨?_, ?_, ?_⟩
  · norm_num [totalSubplotWidth, countCbar, resolveWidth]
  · norm_num [totalSubplotWidth, countCbar, resolveWidth]
  · simp [create_figure, rowHeightsOf, rowHeight, subplotWidthsOf,
      contentWeights, buildWidthRatios, totalSubplotWidth, countCbar, hasBadCol,
      in_to_mpl, resolveWidth, indexOfRow, List.range_succ]
    norm_num

/-- C8 amended: with weights [1, 1], no colorbar, margin 1, total width
6.5 and horizontal spacing 0.25, the content width is
6.5 - 2 - 0.25 = 4.25 and each of the two columns gets 2.125. -/
theorem create_figure_equal_split_amended :
    totalSubplotWidth (resolveWidth Width.single) 1 (1/4) (1/4)
        [Col.weight 1, Col.weight 1] = 17/4 ∧
    ∃ res, create_figure Width.single 1 [Col.weight 1, Col.weight 1] 1 (1/4)
        (1/4) (1/4) [] = .ok res ∧
      res.widthRatios = [17/8, 17/8] := by
  refine ⟨?_, ⟨13/2, 33/8, [17/8, 17/8], [17/8], 2/17, 2/17⟩, ?_, rfl⟩
  · norm_num [totalSubplotWidth, countCbar, resolveWidth]
  · simp [create_figure, rowHeightsOf, rowHeight, subplotWidthsOf,
      contentWeights, buildWidthRatios, totalSubplotWidth, countCbar, hasBadCol,
      in_to_mpl, resolveWidth, indexOfRow, List.range_succ]
    norm_num

/-- C9 counterexample: the descriptor -1 is neither a positive weight nor
the colorbar marker, yet create_figure accepts the request (and even
produces a negative column width) instead of failing. -/
theorem create_figure_negative_weight_accepted :
    (Col.weight (-1) ∈ ([Col.weight 2, Col.weight (-1)] : List Col)) ∧
    ¬ (0 : ℚ) < (-1 : ℚ) ∧
    create_figure Width.single 1 [Col.weight 2, Col.weight (-1)] 1 (1/4) (1/4)
        (1/4) []
      = .ok ⟨13/2, 21/2, [17/2, -17/4], [17/2], 1/34, 2/17⟩ := by
  refine ⟨by simp, by norm_num, ?_⟩
  simp [create_figure, rowHeightsOf, rowHeight, subplotWidthsOf,
    contentWeights, buildWidthRatios, totalSubplotWidth, countCbar, hasBadCol,
    in_to_mpl, resolveWidth, indexOfRow, List.range_succ]
  norm_num

/-- C9 amended: numeric descriptors are never rejected, whatever their
sign; only a non-numeric string descriptor other than the colorbar marker
makes create_figure fail, with the float-conversion error (after the
duplicate-row check passes). -/
theorem create_figure_bad_string_rejected (width : Width) (nrows : ℕ)
    (cols : List Col) (margin hspace wspace cbar_width : ℚ)
    (aspects : List Aspect) (s : String)
    (hdup : (aspects.map Aspect.row).length
      = ((aspects.map Aspect.row).dedup).length)
    (hs : Col.str s ∈ cols) :
    create_figure width nrows cols margin hspace wspace cbar_width aspects
      = .error ⟨"could not convert string to float"⟩ := by
  have hb : hasBadCol cols = true := by
    unfold hasBadCol
    rw [List.any_eq_true]
    exact ⟨Col.str s, hs, rfl⟩
  simp only [create_figure]
  rw [if_neg (not_not_intro hdup), if_pos hb]

/-- Witness for C9 amended on a list holding the string oops. -/
theorem create_figure_bad_string_rejected_witness :
    create_figure Width.single 1 [Col.weight 1, Col.str "oops"] 1 (1/4) (1/4)
        (1/4) []
      = .error ⟨"could not convert string to float"⟩ :=
  create_figure_bad_string_rejected Width.single 1
    [Col.weight 1, Col.str "oops"] 1 (1/4) (1/4) (1/4) [] "oops" (by simp)
    (by simp)

/-- C10: the override column index counts content columns only: for an
accepted request whose column list has a colorbar marker before position
col, the row height uses the width at content index col, and that width
sits at a strictly later position of the full width_ratios list. -/
theorem create_figure_aspect_col_content_indexed (width : Width) (nrows : ℕ)
    (cols : List Col) (margin hspace wspace cbar_width : ℚ)
    (aspects : List Aspect) (res : LayoutResult) (a : Aspect)
    (h : create_figure width nrows cols margin hspace wspace cbar_width aspects
          = .ok res)
    (ha : a ∈ aspects) (hr : a.row < nrows)
    (hcb : Col.cbar ∈ cols.take a.col) :
    ∃ w, (subplotWidthsOf (resolveWidth width) margin wspace cbar_width
          cols).get? a.col = some w ∧
      res.heightRatios.get? a.row = some (w * a.aspect) ∧
      res.widthRatios.get? (contentPos cols a.col) = some w ∧
      a.col < contentPos cols a.col := by
  obtain ⟨hdup, hb, hwd, hs, hrh, hres⟩ :=
    create_figure_ok_elim width nrows cols margin hspace wspace cbar_width
      aspects res h
  have hnd : (aspects.map Aspect.row).Nodup := nodup_of_length_eq_dedup hdup
  have hrange : (List.range nrows).get? a.row = some a.row :=
    List.get?_range hr
  obtain ⟨hv, hok, hsget⟩ :=
    rowHeightsOf_ok_get _ aspects (List.range nrows) hs hrh a.row a.row hrange
  have hmem : a.row ∈ aspects.map Aspect.row :=
    List.mem_map_of_mem Aspect.row ha
  have hidx := get_indexOfRow aspects a hnd ha
  rw [rowHeight_mem_eq _ aspects a.row a hmem hidx] at hok
  subst hres
  cases hw : (subplotWidthsOf (resolveWidth width) margin wspace cbar_width
      cols).get? a.col with
  | none =>
    rw [hw] at hok
    exact Except.noConfusion hok
  | some w =>
    rw [hw] at hok
    have hval : w * a.aspect = hv := by injection hok
    have hclt : a.col < (contentWeights cols).length := by
      by_contra hle
      push_neg at hle
      have hn : (subplotWidthsOf (resolveWidth width) margin wspace cbar_width
          cols).get? a.col = none := by
        rw [List.get?_eq_none, subplotWidthsOf_length]
        exact hle
      rw [hn] at hw
      exact Option.noConfusion hw
    refine ⟨w, rfl, ?_, ?_, ?_⟩
    · show hs.get? a.row = some (w * a.aspect)
      rw [hsget, ← hval]
    · show (buildWidthRatios cols
          (subplotWidthsOf (resolveWidth width) margin wspace cbar_width cols)
          cbar_width).get? (contentPos cols a.col) = some w
      exact buildWidthRatios_get_contentPos cbar_width cols _ a.col w hb
        (subplotWidthsOf_length _ _ _ _ _).symm hw
    · exact contentPos_gt cols a.col hcb (le_of_lt hclt)

/-- Witness for C10: the colorbar sits at full position 0, the override
names content index 1, and the used width sits at full position 2. -/
theorem create_figure_aspect_col_content_indexed_witness :
    ∃ w, (subplotWidthsOf (resolveWidth Width.single) 1 (1/4) (1/4)
          [Col.cbar, Col.weight 1, Col.weight 1]).get?
            (Aspect.col ⟨0, 1, 2⟩) = some w ∧
      (LayoutResult.mk (13/2) (23/4) [1/4, 15/8, 15/8] [15/4] (1/15)
          (3/16)).heightRatios.get? (Aspect.row ⟨0, 1, 2⟩)
        = some (w * Aspect.aspect ⟨0, 1, 2⟩) ∧
      (LayoutResult.mk (13/2) (23/4) [1/4, 15/8, 15/8] [15/4] (1/15)
          (3/16)).widthRatios.get?
          (contentPos [Col.cbar, Col.weight 1, Col.weight 1]
            (Aspect.col ⟨0, 1, 2⟩)) = some w ∧
      Aspect.col ⟨0, 1, 2⟩
        < contentPos [Col.cbar, Col.weight 1, Col.weight 1]
            (Aspect.col ⟨0, 1, 2⟩) :=
  create_figure_aspect_col_content_indexed Width.single 1
    [Col.cbar, Col.weight 1, Col.weight 1] 1 (1/4) (1/4) (1/4) [⟨0, 1, 2⟩]
    ⟨13/2, 23/4, [1/4, 15/8, 15/8], [15/4], 1/15, 3/16⟩ ⟨0, 1, 2⟩
    (by
      simp [create_figure, rowHeightsOf, rowHeight, subplotWidthsOf,
        contentWeights, buildWidthRatios, totalSubplotWidth, countCbar,
        hasBadCol, in_to_mpl, resolveWidth, indexOfRow, List.range_succ]
      norm_num)
    (by simp) (by norm_num) (by simp)

end artists
